import Mathlib

/-!
Shallow embedding of the neuroglancer chunked-graph / mesh streaming core:
the graph client of src/neuroglancer/chunked_graph/frontend.ts
(ChunkedGraphLayer.getRoot / mergeSegments / splitSegments), the precomputed
datasource decoders (decodeVertexPositionsAndIndices, decodeSkeletonChunk,
PrecomputedChunkedGraphSource.download), and the mesh orchestrator of
src/neuroglancer/mesh/backend.ts (updateChunkPriorities, handleChildChunks,
computeVertexNormals), together with theorems checking the specification
claims against the embedded code.

Uint64 segment/root ids are modelled as Nat (the source represents them as
two 32-bit halves with value semantics; values are always below 2^64 and no
arithmetic is performed on them, so the width never matters here).
-/

namespace NG

/-- Error raised by merge/split when no graph server is configured
(GRAPH_SERVER_NOT_SPECIFIED in chunked_graph/frontend.ts), or carried
from a failed HTTP request. -/
inductive GraphError where
  | graphServerNotSpecified : GraphError
  | httpError (status : Nat) : GraphError
deriving DecidableEq, Repr

/-- A segment selection as passed to the graph client: a segment id plus a
sample position (SegmentSelection in chunked_graph/frontend.ts). -/
structure GraphSegmentSelection where
  segmentId : Nat
  position : List Int
deriving DecidableEq, Repr

/-- Outcome of invoking a graph-client operation: either it resolves
immediately without any network traffic, rejects immediately without any
network traffic, or issues an HTTP request to the given endpoint. -/
inductive GraphOutcome (α : Type) where
  | resolved (value : α) : GraphOutcome α
  | rejected (error : GraphError) : GraphOutcome α
  | httpRequest (endpoint : String) : GraphOutcome α
deriving DecidableEq, Repr

/-- ChunkedGraphLayer.getRoot: with an empty graph url the promise resolves
immediately to the selection's own segment id; otherwise a POST to
url/1.0/graph/root is issued. -/
def getRoot (url : String) (selection : GraphSegmentSelection) : GraphOutcome Nat :=
  if url = "" then
    GraphOutcome.resolved selection.segmentId
  else
    GraphOutcome.httpRequest (url ++ "/1.0/graph/root")

/-- ChunkedGraphLayer.mergeSegments: with an empty graph url the promise is
rejected with GRAPH_SERVER_NOT_SPECIFIED; otherwise a POST to
url/1.0/graph/merge is issued. -/
def mergeSegments (url : String) (first second : GraphSegmentSelection) :
    GraphOutcome Nat :=
  if url = "" then
    GraphOutcome.rejected GraphError.graphServerNotSpecified
  else
    GraphOutcome.httpRequest (url ++ "/1.0/graph/merge")

/-- ChunkedGraphLayer.splitSegments: with an empty graph url the promise is
rejected with GRAPH_SERVER_NOT_SPECIFIED; otherwise a POST to
url/1.0/graph/split is issued. -/
def splitSegments (url : String) (first second : List GraphSegmentSelection) :
    GraphOutcome (List Nat) :=
  if url = "" then
    GraphOutcome.rejected GraphError.graphServerNotSpecified
  else
    GraphOutcome.httpRequest (url ++ "/1.0/graph/split")

/-- C4: getRoot with no graph server configured (empty url) resolves to the
input segment id itself, without issuing any network request. -/
theorem getRoot_no_server_is_identity (selection : GraphSegmentSelection) :
    getRoot "" selection = GraphOutcome.resolved selection.segmentId ∧
    ∀ endpoint, getRoot "" selection ≠ GraphOutcome.httpRequest endpoint := by
  constructor
  · simp [getRoot]
  · intro endpoint
    simp [getRoot]

/-- C5: mergeSegments and splitSegments with no graph server configured
always reject with GRAPH_SERVER_NOT_SPECIFIED and never issue a network
request; the failure is an explicit rejection, never a silent resolution. -/
theorem merge_split_no_server_rejects (a b : GraphSegmentSelection)
    (xs ys : List GraphSegmentSelection) :
    mergeSegments "" a b = GraphOutcome.rejected GraphError.graphServerNotSpecified ∧
    splitSegments "" xs ys = GraphOutcome.rejected GraphError.graphServerNotSpecified ∧
    (∀ endpoint, mergeSegments "" a b ≠ GraphOutcome.httpRequest endpoint) ∧
    (∀ endpoint, splitSegments "" xs ys ≠ GraphOutcome.httpRequest endpoint) ∧
    (∀ value, mergeSegments "" a b ≠ GraphOutcome.resolved value) ∧
    (∀ value, splitSegments "" xs ys ≠ GraphOutcome.resolved value) := by
  refine ⟨by simp [mergeSegments], by simp [splitSegments], ?_, ?_, ?_, ?_⟩ <;>
    intro x <;> simp [mergeSegments, splitSegments]

/-- Request path built by PrecomputedChunkedGraphSource.download for one
root-segment key: path/key/leaves?bounds=BOUNDS. -/
def leafRequestPath (path bounds key : String) : String :=
  path ++ "/" ++ key ++ "/leaves?bounds=" ++ bounds

/-- The list of leaf requests issued by PrecomputedChunkedGraphSource.download:
one request per entry of chunk.mappings whose value is still null (none),
in mapping order. -/
def leavesRequests (path bounds : String)
    (mappings : List (String × Option (List Nat))) : List String :=
  mappings.filterMap fun kv =>
    match kv.2 with
    | none => some (leafRequestPath path bounds kv.1)
    | some _ => none

/-- Semantics of Promise.all over the already-settled outcomes of a list of
sub-requests: fulfilled with the list of values when every sub-request
fulfilled, rejected with the first rejection otherwise. -/
def promiseAll {ε α : Type} : List (Except ε α) → Except ε (List α)
  | [] => Except.ok []
  | Except.error e :: _ => Except.error e
  | Except.ok a :: rest => (promiseAll rest).map fun as => a :: as

/-- PrecomputedChunkedGraphSource.download: issues the leaf requests for all
unresolved roots and aggregates their settled outcomes with Promise.all,
discarding the value list. The respond function gives the settled outcome
of each issued sub-request. -/
def downloadChunkedGraphChunk (path bounds : String)
    (mappings : List (String × Option (List Nat)))
    (respond : String → Except String Unit) : Except String Unit :=
  (promiseAll ((leavesRequests path bounds mappings).map respond)).map fun _ => ()

theorem promiseAll_ok_iff {ε α : Type} (l : List (Except ε α)) :
    (∃ v, promiseAll l = Except.ok v) ↔ ∀ x ∈ l, ∃ a, x = Except.ok a := by
  induction l with
  | nil => simp [promiseAll]
  | cons x rest ih =>
    cases x with
    | error e => simp [promiseAll]
    | ok a =>
      simp only [promiseAll, List.mem_cons]
      constructor
      · rintro ⟨v, hv⟩
        rcases hok : promiseAll rest with e | vs
        · rw [hok] at hv
          simp [Except.map] at hv
        · intro y hy
          rcases hy with hy | hy
          · exact ⟨a, by rw [hy]⟩
          · exact (ih.mp ⟨vs, hok⟩) y hy
      · intro h
        rcases ih.mpr (fun y hy => h y (Or.inr hy)) with ⟨vs, hvs⟩
        exact ⟨a :: vs, by rw [hvs]; rfl⟩

theorem promiseAll_error_of_mem {ε α : Type} (l : List (Except ε α)) (e : ε)
    (h : Except.error e ∈ l) : ∃ e2, promiseAll l = Except.error e2 := by
  induction l with
  | nil => simp at h
  | cons x rest ih =>
    cases x with
    | error e0 => exact ⟨e0, rfl⟩
    | ok a =>
      rcases List.mem_cons.mp h with h0 | h0
      · exact absurd h0 (by simp)
      · rcases ih h0 with ⟨e2, he2⟩
        exact ⟨e2, by simp [promiseAll, he2, Except.map]⟩

/-- C6: the chunked-graph leaf download issues one leaves request per root
segment whose mapping is unresolved (null); the aggregate promise fulfills
exactly when every sub-request fulfilled, and the failure of any one
sub-request propagates as a failure of the whole download. -/
theorem chunked_graph_download_fanout (path bounds : String)
    (mappings : List (String × Option (List Nat)))
    (respond : String → Except String Unit) :
    (∀ key, (key, (none : Option (List Nat))) ∈ mappings →
      leafRequestPath path bounds key ∈ leavesRequests path bounds mappings) ∧
    (leavesRequests path bounds mappings).length =
      (mappings.filter fun kv => kv.2 = none).length ∧
    ((downloadChunkedGraphChunk path bounds mappings respond = Except.ok ()) ↔
      ∀ req ∈ leavesRequests path bounds mappings, respond req = Except.ok ()) ∧
    (∀ req e, req ∈ leavesRequests path bounds mappings →
      respond req = Except.error e →
      ∃ e2, downloadChunkedGraphChunk path bounds mappings respond = Except.error e2) := by
  refine ⟨?_, ?_, ?_, ?_⟩
  · intro key hkey
    exact List.mem_filterMap.mpr ⟨(key, none), hkey, rfl⟩
  · induction mappings with
    | nil => rfl
    | cons kv rest ih =>
      rcases kv with ⟨k, v⟩
      cases v with
      | none => simpa [leavesRequests, List.filterMap, List.filter] using ih
      | some w => simpa [leavesRequests, List.filterMap, List.filter] using ih
  · unfold downloadChunkedGraphChunk
    constructor
    · intro h req hreq
      rcases hall : promiseAll ((leavesRequests path bounds mappings).map respond) with
        e | vs
      · rw [hall] at h
        simp [Except.map] at h
      · have hmem : respond req ∈ (leavesRequests path bounds mappings).map respond :=
          List.mem_map.mpr ⟨req, hreq, rfl⟩
        rcases (promiseAll_ok_iff _).mp ⟨vs, hall⟩ (respond req) hmem with ⟨a, ha⟩
        cases a
        exact ha
    · intro h
      have : ∀ x ∈ (leavesRequests path bounds mappings).map respond,
          ∃ a, x = Except.ok a := by
        intro x hx
        rcases List.mem_map.mp hx with ⟨req, hreq, rfl⟩
        exact ⟨(), h req hreq⟩
      rcases (promiseAll_ok_iff _).mpr this with ⟨vs, hvs⟩
      rw [hvs]
      rfl
  · intro req e hreq herr
    have hmem : Except.error e ∈ (leavesRequests path bounds mappings).map respond := by
      rw [← herr]
      exact List.mem_map.mpr ⟨req, hreq, rfl⟩
    rcases promiseAll_error_of_mem _ e hmem with ⟨e2, he2⟩
    exact ⟨e2, by unfold downloadChunkedGraphChunk; rw [he2]; rfl⟩

/-- Witness for C6: a mapping with one unresolved root and one resolved root
issues exactly one request, and a responder that fulfills it makes the whole
download succeed. -/
theorem chunked_graph_download_fanout_witness :
    downloadChunkedGraphChunk "g" "0-1_0-1_0-1" [("5", none), ("6", some [7])]
      (fun _ => Except.ok ()) = Except.ok () :=
  (chunked_graph_download_fanout "g" "0-1_0-1_0-1" [("5", none), ("6", some [7])]
    (fun _ => Except.ok ())).2.2.1.mpr (by intro req hreq; rfl)

/-- Wire or platform endianness (neuroglancer/util/endian Endianness). -/
inductive Endianness where
  | little : Endianness
  | big : Endianness
deriving DecidableEq, Repr

/-- Assembles a byte list into 32-bit words, little-endian (the memory layout
a typed 32-bit view imposes on an underlying little-endian buffer). -/
def bytesToWords32 : List Nat → List Nat
  | b0 :: b1 :: b2 :: b3 :: rest =>
    (b0 + 256 * (b1 + 256 * (b2 + 256 * b3))) :: bytesToWords32 rest
  | _ => []

/-- Reverses the byte order of one 32-bit word. -/
def wordSwap32 (w : Nat) : Nat :=
  let b0 := w % 256
  let b1 := w / 256 % 256
  let b2 := w / 65536 % 256
  let b3 := w / 16777216 % 256
  b3 + 256 * (b2 + 256 * (b1 + 256 * b0))

/-- Modelled from the spec: neuroglancer/util/endian convertEndian32 on a
32-bit typed view (the util module is not part of the shown sources) —
converts in place, swapping the bytes of each element exactly when the
declared wire endianness differs from the platform endianness. -/
def convertEndian32Words (declared platform : Endianness) (ws : List Nat) : List Nat :=
  if declared = platform then ws else ws.map wordSwap32

/-- Decode failure: a typed-array construction out of range / misaligned
(RangeError), or the explicit index-count check of
decodeVertexPositionsAndIndices. -/
inductive DecodeError where
  | rangeError : DecodeError
  | indexCountNotMultiple (verticesPerPrimitive count : Nat) : DecodeError
deriving DecidableEq, Repr

/-- Construction of a 32-bit typed-array view over a byte buffer, as by
new Float32Array(data, byteOffset, length) or new Uint32Array(data,
byteOffset[, length]): with an explicit length the view must fit in the
buffer; without one it runs to the end of the buffer, whose remaining byte
count must be a multiple of the element size; the byte offset must be
4-aligned. Returns the element values (bit patterns for floats). -/
def typedArray32 (data : List Nat) (byteOffset : Nat) (length? : Option Nat) :
    Except DecodeError (List Nat) :=
  match length? with
  | some n =>
    if byteOffset % 4 = 0 ∧ byteOffset + 4 * n ≤ data.length then
      Except.ok (bytesToWords32 ((data.drop byteOffset).take (4 * n)))
    else
      Except.error DecodeError.rangeError
  | none =>
    if byteOffset % 4 = 0 ∧ byteOffset ≤ data.length ∧
        (data.length - byteOffset) % 4 = 0 then
      Except.ok (bytesToWords32 (data.drop byteOffset))
    else
      Except.error DecodeError.rangeError

/-- Decoded geometry payload of a fragment or skeleton chunk: vertex
positions (raw float32 bit patterns) and primitive indices. -/
structure GeometryChunk where
  vertexPositions : List Nat
  indices : List Nat
deriving DecidableEq, Repr

/-- decodeVertexPositionsAndIndices (mesh/backend.ts): reads numVertices * 3
floats starting at vertexByteOffset, then the index array (to the end of the
buffer unless numPrimitives is given); errors when the index count is not a
multiple of verticesPerPrimitive. The platform is little-endian. -/
def decodeVertexPositionsAndIndices (verticesPerPrimitive : Nat) (data : List Nat)
    (endianness : Endianness) (vertexByteOffset numVertices : Nat)
    (indexByteOffset? numPrimitives? : Option Nat) :
    Except DecodeError GeometryChunk := do
  let vertexPositions ← typedArray32 data vertexByteOffset (some (numVertices * 3))
  let vertexPositions := convertEndian32Words endianness Endianness.little vertexPositions
  let indexByteOffset := indexByteOffset?.getD (vertexByteOffset + 12 * numVertices)
  let numIndices? := numPrimitives?.map fun np => np * verticesPerPrimitive
  let indices ← typedArray32 data indexByteOffset numIndices?
  if indices.length % verticesPerPrimitive ≠ 0 then
    Except.error (DecodeError.indexCountNotMultiple verticesPerPrimitive indices.length)
  else
    Except.ok ⟨vertexPositions, convertEndian32Words endianness Endianness.little indices⟩

/-- C7: whenever the decoded index array length is not an exact multiple of
verticesPerPrimitive, decodeVertexPositionsAndIndices raises the decode
error rather than succeeding. -/
theorem decode_rejects_nonmultiple_index_count (verticesPerPrimitive : Nat)
    (data : List Nat) (endianness : Endianness) (vertexByteOffset numVertices : Nat)
    (indexByteOffset? numPrimitives? : Option Nat) (positions indices : List Nat)
    (h1 : typedArray32 data vertexByteOffset (some (numVertices * 3)) =
      Except.ok positions)
    (h2 : typedArray32 data (indexByteOffset?.getD (vertexByteOffset + 12 * numVertices))
      (numPrimitives?.map fun np => np * verticesPerPrimitive) = Except.ok indices)
    (h3 : indices.length % verticesPerPrimitive ≠ 0) :
    decodeVertexPositionsAndIndices verticesPerPrimitive data endianness
      vertexByteOffset numVertices indexByteOffset? numPrimitives? =
      Except.error (DecodeError.indexCountNotMultiple verticesPerPrimitive
        indices.length) := by
  unfold decodeVertexPositionsAndIndices
  simp [h1, h2, Bind.bind, Except.bind, h3]

/-- Witness for C7: a 40-byte buffer with zero vertices decodes to a 10-entry
index array, which is not a multiple of 3 (triangles), so the decode errors
out exactly as the claim's example requires. -/
theorem decode_rejects_nonmultiple_index_count_witness :
    decodeVertexPositionsAndIndices 3 (List.replicate 40 0) Endianness.little
      0 0 none none =
      Except.error (DecodeError.indexCountNotMultiple 3 10) :=
  decode_rejects_nonmultiple_index_count 3 (List.replicate 40 0) Endianness.little
    0 0 none none [] (List.replicate 10 0) rfl rfl (by decide)

/-- Chunk lifecycle states (chunk_manager/base ChunkState), including the
graph-fallback state REQUESTING_CHILDREN used by mesh/backend.ts. -/
inductive ChunkState where
  | queued : ChunkState
  | downloading : ChunkState
  | systemMemoryWorker : ChunkState
  | systemMemory : ChunkState
  | gpuMemory : ChunkState
  | failed : ChunkState
  | requestingChildren : ChunkState
deriving DecidableEq, Repr

/-- MESH_OBJECT_MANIFEST_CHUNK_PRIORITY (mesh/backend.ts line 33). -/
def MESH_OBJECT_MANIFEST_CHUNK_PRIORITY : Int := 100

/-- MESH_OBJECT_FRAGMENT_CHUNK_PRIORITY (mesh/backend.ts line 34). -/
def MESH_OBJECT_FRAGMENT_CHUNK_PRIORITY : Int := 50

/-- The manifest chunk of one visible segment as seen by a priority pass:
its object id, its current lifecycle state, and its fragment id list (empty
until a manifest download succeeded). -/
structure ManifestChunkInfo where
  objectId : Nat
  state : ChunkState
  fragmentIds : List String
deriving DecidableEq, Repr

/-- A chunk request issued to chunkManager.requestChunk during one priority
pass: the chunk identity, the priority tier, and the numeric priority. -/
inductive MeshRequest where
  | manifest (objectId : Nat) (tier : Nat) (priority : Int) : MeshRequest
  | fragment (objectId : Nat) (fragmentId : String) (tier : Nat) (priority : Int) :
      MeshRequest
deriving DecidableEq, Repr

/-- The chunk requests MeshLayer.updateChunkPriorities issues for one visible
segment: the manifest at basePriority + MESH_OBJECT_MANIFEST_CHUNK_PRIORITY,
and, when the manifest is in a loaded state, every listed fragment at
basePriority + MESH_OBJECT_FRAGMENT_CHUNK_PRIORITY, all in the same tier. -/
def chunkRequestsFor (tier : Nat) (basePriority : Int) (m : ManifestChunkInfo) :
    List MeshRequest :=
  MeshRequest.manifest m.objectId tier
      (basePriority + MESH_OBJECT_MANIFEST_CHUNK_PRIORITY) ::
    (match m.state with
     | ChunkState.systemMemoryWorker | ChunkState.systemMemory
     | ChunkState.gpuMemory =>
       m.fragmentIds.map fun fid =>
         MeshRequest.fragment m.objectId fid tier
           (basePriority + MESH_OBJECT_FRAGMENT_CHUNK_PRIORITY)
     | _ => [])

/-- MeshLayer.updateChunkPriorities, restricted to the chunk requests it
issues: with visibility NEGATIVE_INFINITY (none) the pass returns early and
requests nothing; otherwise it derives (tier, basePriority) and walks every
visible 3D segment. -/
def updateChunkPriorities (visibility : Option (Nat × Int))
    (manifests : List ManifestChunkInfo) : List MeshRequest :=
  match visibility with
  | none => []
  | some (tier, basePriority) => manifests.flatMap (chunkRequestsFor tier basePriority)

/-- C8: in a priority pass, every visible segment's manifest is requested at
basePriority + 100; every fragment request is issued at basePriority + 50 in
the same tier; hence a manifest request outranks its own fragment requests
by the fixed offset 50. -/
theorem manifest_fragment_priority_offsets (tier : Nat) (basePriority : Int)
    (manifests : List ManifestChunkInfo) (m : ManifestChunkInfo)
    (hm : m ∈ manifests) :
    MeshRequest.manifest m.objectId tier
        (basePriority + MESH_OBJECT_MANIFEST_CHUNK_PRIORITY) ∈
      updateChunkPriorities (some (tier, basePriority)) manifests ∧
    (∀ oid fid t p,
      MeshRequest.fragment oid fid t p ∈
          updateChunkPriorities (some (tier, basePriority)) manifests →
      t = tier ∧ p = basePriority + MESH_OBJECT_FRAGMENT_CHUNK_PRIORITY) ∧
    (basePriority + MESH_OBJECT_MANIFEST_CHUNK_PRIORITY) -
      (basePriority + MESH_OBJECT_FRAGMENT_CHUNK_PRIORITY) = 50 := by
  refine ⟨?_, ?_, ?_⟩
  · exact List.mem_flatMap.mpr ⟨m, hm, List.mem_cons_self _ _⟩
  · intro oid fid t p hmem
    rcases List.mem_flatMap.mp hmem with ⟨m2, _, hreq⟩
    unfold chunkRequestsFor at hreq
    rcases List.mem_cons.mp hreq with h | h
    · simp at h
    · cases hst : m2.state <;> rw [hst] at h <;> simp at h <;>
        obtain ⟨a, ha, h1, h2, h3, h4⟩ := h <;> exact ⟨h3.symm, h4.symm⟩
  · unfold MESH_OBJECT_MANIFEST_CHUNK_PRIORITY MESH_OBJECT_FRAGMENT_CHUNK_PRIORITY
    ring

/-- Witness for C8: a loaded manifest with one fragment produces a manifest
request at priority 107 and only fragment requests at priority 57, tier 2. -/
theorem manifest_fragment_priority_offsets_witness :
    MeshRequest.manifest 5 2 (7 + MESH_OBJECT_MANIFEST_CHUNK_PRIORITY) ∈
      updateChunkPriorities (some (2, 7))
        [⟨5, ChunkState.systemMemory, ["f0"]⟩] ∧
    (7 + MESH_OBJECT_MANIFEST_CHUNK_PRIORITY) -
      (7 + MESH_OBJECT_FRAGMENT_CHUNK_PRIORITY) = 50 := by
  have h := manifest_fragment_priority_offsets 2 7
    [⟨5, ChunkState.systemMemory, ["f0"]⟩] ⟨5, ChunkState.systemMemory, ["f0"]⟩
    (List.mem_singleton.mpr rfl)
  exact ⟨h.1, h.2.2⟩

/-- Per-manifest state of the graph fallback protocol: the manifest chunk's
lifecycle state together with the fallback getChildren queries currently in
flight for it, each recorded with the (segment id, root id) pair snapshotted
by value when the query was issued. -/
structure FallbackState where
  chunkState : ChunkState
  inflight : List (Nat × Nat)
deriving DecidableEq, Repr

/-- Initial state of a freshly created manifest chunk: queued, no fallback
query in flight. -/
def fallbackInit : FallbackState := ⟨ChunkState.queued, []⟩

/-- Events acting on one manifest chunk of MeshLayer: the external chunk
manager starts and finishes its download, a priority pass visits it
(updateChunkPriorities switch on its state), and a getChildren response
arrives (the promise callback, which reverts the state to FAILED). When a
priority pass visits a FAILED manifest with a graph client configured it
moves the chunk to REQUESTING_CHILDREN and issues exactly one getChildren
call carrying the visited segment and root ids by value. -/
inductive FallbackStep (hasGraph : Bool) (objectId : Nat) :
    FallbackState → FallbackState → Prop where
  | startDownload (s : FallbackState) :
      s.chunkState = ChunkState.queued →
      FallbackStep hasGraph objectId s ⟨ChunkState.downloading, s.inflight⟩
  | downloadSucceeded (s : FallbackState) :
      s.chunkState = ChunkState.downloading →
      FallbackStep hasGraph objectId s ⟨ChunkState.systemMemoryWorker, s.inflight⟩
  | downloadFailed (s : FallbackState) :
      s.chunkState = ChunkState.downloading →
      FallbackStep hasGraph objectId s ⟨ChunkState.failed, s.inflight⟩
  | visitFailedWithGraph (s : FallbackState) (rootId : Nat) :
      hasGraph = true →
      s.chunkState = ChunkState.failed →
      FallbackStep hasGraph objectId s
        ⟨ChunkState.requestingChildren, s.inflight ++ [(objectId, rootId)]⟩
  | visitFailedNoGraph (s : FallbackState) :
      hasGraph = false →
      s.chunkState = ChunkState.failed →
      FallbackStep hasGraph objectId s s
  | visitNotFailed (s : FallbackState) :
      s.chunkState ≠ ChunkState.failed →
      FallbackStep hasGraph objectId s s
  | childrenResponse (s : FallbackState) (q : Nat × Nat) (rest : List (Nat × Nat)) :
      s.inflight = q :: rest →
      FallbackStep hasGraph objectId s ⟨ChunkState.failed, rest⟩

/-- C1: from the initial state, at most one fallback graph query is ever
outstanding for a manifest, and the manifest is in REQUESTING_CHILDREN
exactly while that single query is in flight — so each FAILED to
REQUESTING_CHILDREN transition issues exactly one getChildren call and the
state returns to FAILED exactly when its response arrives. -/
theorem fallback_single_outstanding_query (hasGraph : Bool) (objectId : Nat)
    (s : FallbackState)
    (h : Relation.ReflTransGen (FallbackStep hasGraph objectId) fallbackInit s) :
    s.inflight.length ≤ 1 ∧
      (s.chunkState = ChunkState.requestingChildren ↔ s.inflight.length = 1) := by
  induction h with
  | refl => exact ⟨by simp [fallbackInit], by simp [fallbackInit]⟩
  | @tail b c hsteps hstep ih =>
    rcases ih with ⟨hlen, hiff⟩
    cases hstep with
    | startDownload ht =>
      have h0 : b.inflight.length = 0 := by
        by_contra hne
        have h1 : b.inflight.length = 1 := by omega
        have h2 := (hiff.mpr h1).symm.trans ht
        simp at h2
      exact ⟨by simp [h0], by simp [h0]⟩
    | downloadSucceeded ht =>
      have h0 : b.inflight.length = 0 := by
        by_contra hne
        have h1 : b.inflight.length = 1 := by omega
        have h2 := (hiff.mpr h1).symm.trans ht
        simp at h2
      exact ⟨by simp [h0], by simp [h0]⟩
    | downloadFailed ht =>
      have h0 : b.inflight.length = 0 := by
        by_contra hne
        have h1 : b.inflight.length = 1 := by omega
        have h2 := (hiff.mpr h1).symm.trans ht
        simp at h2
      exact ⟨by simp [h0], by simp [h0]⟩
    | visitFailedWithGraph rootId hg ht =>
      have h0 : b.inflight.length = 0 := by
        by_contra hne
        have h1 : b.inflight.length = 1 := by omega
        have h2 := (hiff.mpr h1).symm.trans ht
        simp at h2
      have hnil : b.inflight = [] := List.length_eq_zero.mp h0
      exact ⟨by simp [hnil], by simp [hnil]⟩
    | visitFailedNoGraph hg ht => exact ⟨hlen, hiff⟩
    | visitNotFailed ht => exact ⟨hlen, hiff⟩
    | childrenResponse q rest hq =>
      have h2 := hlen
      rw [hq] at h2
      simp only [List.length_cons] at h2
      have hr : rest = [] := List.length_eq_zero.mp (by omega)
      exact ⟨by simp [hr], by simp [hr]⟩

/-- Witness for C1: the invariant instantiated along a concrete trace — a
download failure followed by a fallback visit leaves exactly one query in
flight and the chunk in REQUESTING_CHILDREN. -/
theorem fallback_single_outstanding_query_witness :
    (⟨ChunkState.requestingChildren, [(5, 5)]⟩ : FallbackState).inflight.length ≤ 1 ∧
      ((⟨ChunkState.requestingChildren, [(5, 5)]⟩ : FallbackState).chunkState =
          ChunkState.requestingChildren ↔
        (⟨ChunkState.requestingChildren, [(5, 5)]⟩ :
          FallbackState).inflight.length = 1) :=
  fallback_single_outstanding_query true 5 ⟨ChunkState.requestingChildren, [(5, 5)]⟩
    (Relation.ReflTransGen.tail
      (Relation.ReflTransGen.tail
        (Relation.ReflTransGen.tail Relation.ReflTransGen.refl
          (FallbackStep.startDownload fallbackInit rfl))
        (FallbackStep.downloadFailed ⟨ChunkState.downloading, []⟩ rfl))
      (FallbackStep.visitFailedWithGraph ⟨ChunkState.failed, []⟩ 5 rfl rfl))

/-- Pending per-root child-chunk batch: the add and delete segment lists
accumulated for one root in MeshLayer.requestedChildChunks. -/
structure ChildBatch where
  add : List Nat
  delete : List Nat
deriving DecidableEq, Repr

/-- The externally owned segmentation display sets the mesh orchestrator
reads and mutates: the root-segment set, the visible-3D segment set, and the
equivalence structure (modelled by the ordered list of link(root, child)
calls issued to it). -/
structure SegmentSets where
  rootSegments : Finset Nat
  visibleSegments3D : Finset Nat
  segmentEquivalences : List (Nat × Nat)
deriving DecidableEq

/-- The mutable state of a MeshLayer relevant to the child-chunk fallback
protocol: the state of the manifest chunk whose getChildren callback is
modelled, the requestedChildChunks map (an insertion-ordered association
list keyed by root id, as a JS Map keyed by the root's decimal string), the
display sets, and whether a debounced handleChildChunks flush is pending. -/
structure MeshLayerState where
  chunkState : ChunkState
  requestedChildChunks : List (Nat × ChildBatch)
  seg : SegmentSets
  debouncePending : Bool
deriving DecidableEq

/-- Accumulation into requestedChildChunks performed by the getChildren
callback: create the root's entry if absent, then push the children onto its
add list and the snapshotted segment id onto its delete list. -/
def pushChildren (m : List (Nat × ChildBatch)) (rootId : Nat)
    (children : List Nat) (segmentId : Nat) : List (Nat × ChildBatch) :=
  match m with
  | [] => [(rootId, ⟨children, [segmentId]⟩)]
  | (k, b) :: rest =>
    if k = rootId then
      (k, ⟨b.add ++ children, b.delete ++ [segmentId]⟩) :: rest
    else
      (k, b) :: pushChildren rest rootId children segmentId

/-- Looks up the batch accumulated for a root id. -/
def batchFor (m : List (Nat × ChildBatch)) (rootId : Nat) : Option ChildBatch :=
  (m.find? fun kv => kv.1 = rootId).map fun kv => kv.2

/-- The getChildren promise callback of MeshLayer.updateChunkPriorities:
reverts the manifest to FAILED, drops the response entirely when the
snapshotted root is no longer in the root-segment set, and otherwise
accumulates the children into the pending batch and triggers the debounced
flush. -/
def onChildrenResponse (s : MeshLayerState) (rootId segmentId : Nat)
    (children : List Nat) : MeshLayerState :=
  let s := { s with chunkState := ChunkState.failed }
  if rootId ∈ s.seg.rootSegments then
    { s with
      requestedChildChunks :=
        pushChildren s.requestedChildChunks rootId children segmentId,
      debouncePending := true }
  else
    s

/-- One entry of the flush pass of MeshLayer.handleChildChunks: re-checks
root membership at apply time; when the root is still present, adds every
accumulated child to the visible-3D set and links it to the root in the
equivalence structure, then deletes every accumulated delete entry; when the
root is absent, applies nothing. -/
def applyBatchEntry (seg : SegmentSets) (rootId : Nat) (b : ChildBatch) :
    SegmentSets :=
  if rootId ∈ seg.rootSegments then
    let seg := b.add.foldl
      (fun st e =>
        { st with
          visibleSegments3D := insert e st.visibleSegments3D,
          segmentEquivalences := st.segmentEquivalences ++ [(rootId, e)] })
      seg
    b.delete.foldl
      (fun st e => { st with visibleSegments3D := st.visibleSegments3D.erase e })
      seg
  else
    seg

/-- MeshLayer.handleChildChunks: walks the pending batch map in insertion
order, applying each root's entry, and clears the map afterwards regardless
of the outcome of the membership checks. -/
def handleChildChunks (s : MeshLayerState) : MeshLayerState :=
  { s with
    seg := s.requestedChildChunks.foldl (fun st kv => applyBatchEntry st kv.1 kv.2) s.seg,
    requestedChildChunks := [] }

/-- Modelled from the spec: the debounced wrapper around handleChildChunks
(lodash debounce with a fixed 100 ms delay; the lodash module is outside the
shown sources). Triggers within one window coalesce into a single pending
flush; when the window elapses the pending flush runs exactly once. -/
def fireDebounce (s : MeshLayerState) : MeshLayerState :=
  if s.debouncePending then
    { handleChildChunks s with debouncePending := false }
  else
    s

/-- C2: when the snapshotted root id is no longer in the root-segment set,
the children response is dropped whole at the response-received point
(nothing accumulated, no flush triggered, no set touched), and the same
membership re-check at batch-apply time keeps a stale accumulated entry from
mutating the visible-3D set or the equivalence structure. -/
theorem root_membership_rechecked_twice (s : MeshLayerState)
    (rootId segmentId : Nat) (children : List Nat) (b : ChildBatch)
    (h : rootId ∉ s.seg.rootSegments) :
    onChildrenResponse s rootId segmentId children =
      { s with chunkState := ChunkState.failed } ∧
    applyBatchEntry s.seg rootId b = s.seg ∧
    (handleChildChunks { s with requestedChildChunks := [(rootId, b)] }).seg = s.seg := by
  refine ⟨?_, ?_, ?_⟩
  · simp [onChildrenResponse, h]
  · simp [applyBatchEntry, h]
  · simp [handleChildChunks, applyBatchEntry, h]

/-- Witness for C2: with root 9 absent from the root set, a response for
root 9 only reverts the chunk state, and flushing a stale batch for root 9
leaves the display sets untouched. -/
theorem root_membership_rechecked_twice_witness :
    onChildrenResponse
        ⟨ChunkState.requestingChildren, [], ⟨{5}, {5}, []⟩, false⟩ 9 5 [6, 7] =
      ⟨ChunkState.failed, [], ⟨{5}, {5}, []⟩, false⟩ ∧
    (handleChildChunks
        ⟨ChunkState.failed, [(9, ⟨[6, 7], [5]⟩)], ⟨{5}, {5}, []⟩, false⟩).seg =
      ⟨{5}, {5}, []⟩ := by
  have h := root_membership_rechecked_twice
    ⟨ChunkState.requestingChildren, [], ⟨{5}, {5}, []⟩, false⟩ 9 5 [6, 7]
    ⟨[6, 7], [5]⟩ (by decide)
  exact ⟨h.1, h.2.2⟩

/-- C3: two children responses for the same root within one debounce window
accumulate into a single pending entry holding the concatenation of their
add lists and of their delete lists; the single coalesced flush applies
exactly that combined batch once (a repeated fire is a no-op), and the
pending map is empty after any flush pass regardless of the membership
checks' outcomes. -/
theorem batched_children_single_flush (s : MeshLayerState)
    (rootId seg1 seg2 : Nat) (ch1 ch2 : List Nat)
    (hr : rootId ∈ s.seg.rootSegments)
    (h0 : s.requestedChildChunks = []) :
    (onChildrenResponse (onChildrenResponse s rootId seg1 ch1) rootId seg2
        ch2).requestedChildChunks =
      [(rootId, ⟨ch1 ++ ch2, [seg1, seg2]⟩)] ∧
    (fireDebounce (onChildrenResponse (onChildrenResponse s rootId seg1 ch1)
        rootId seg2 ch2)).requestedChildChunks = [] ∧
    (fireDebounce (onChildrenResponse (onChildrenResponse s rootId seg1 ch1)
        rootId seg2 ch2)).seg =
      applyBatchEntry s.seg rootId ⟨ch1 ++ ch2, [seg1, seg2]⟩ ∧
    fireDebounce (fireDebounce (onChildrenResponse (onChildrenResponse s rootId
        seg1 ch1) rootId seg2 ch2)) =
      fireDebounce (onChildrenResponse (onChildrenResponse s rootId seg1 ch1)
        rootId seg2 ch2) ∧
    (∀ t : MeshLayerState, (handleChildChunks t).requestedChildChunks = []) := by
  refine ⟨?_, ?_, ?_, ?_, fun t => rfl⟩
  · simp [onChildrenResponse, hr, h0, pushChildren]
  · simp [onChildrenResponse, hr, h0, pushChildren, fireDebounce, handleChildChunks]
  · simp [onChildrenResponse, hr, h0, pushChildren, fireDebounce, handleChildChunks]
  · simp [onChildrenResponse, hr, h0, pushChildren, fireDebounce, handleChildChunks]

/-- Witness for C3: root 5 stays selected; children responses [6] and [7]
within one window coalesce into the single batch add [6, 7], delete [5, 5],
the flush empties the map, and a second fire changes nothing. -/
theorem batched_children_single_flush_witness :
    (onChildrenResponse (onChildrenResponse
        ⟨ChunkState.requestingChildren, [], ⟨{5}, {5}, []⟩, false⟩ 5 5 [6])
        5 5 [7]).requestedChildChunks =
      [(5, ⟨[6, 7], [5, 5]⟩)] ∧
    (fireDebounce (onChildrenResponse (onChildrenResponse
        ⟨ChunkState.requestingChildren, [], ⟨{5}, {5}, []⟩, false⟩ 5 5 [6])
        5 5 [7])).requestedChildChunks = [] := by
  have h := batched_children_single_flush
    ⟨ChunkState.requestingChildren, [], ⟨{5}, {5}, []⟩, false⟩ 5 5 5 [6] [7]
    (by decide) rfl
  exact ⟨h.1, h.2.1⟩

/-- Declared schema of one skeleton vertex attribute: the byte size of its
scalar data type (DATA_TYPE_BYTES[info.dataType]) and its component count. -/
structure VertexAttributeInfo where
  dataTypeBytes : Nat
  numComponents : Nat
deriving DecidableEq, Repr

/-- Swaps each adjacent byte pair: the effect of a 16-bit endian swap on the
underlying bytes. -/
def swapPairs16 : List Nat → List Nat
  | a :: b :: rest => b :: a :: swapPairs16 rest
  | l => l

/-- Reverses each 4-byte group: the effect of a 32-bit-granularity endian
swap on the underlying bytes. -/
def swapQuads32 : List Nat → List Nat
  | a :: b :: c :: d :: rest => d :: c :: b :: a :: swapQuads32 rest
  | l => l

/-- Modelled from the spec: neuroglancer/util/endian convertEndian16 on a
byte view (the util module is not part of the shown sources) — swaps each
16-bit unit exactly when the declared wire endianness differs from the
platform endianness. -/
def convertEndian16Bytes (declared platform : Endianness) (bs : List Nat) :
    List Nat :=
  if declared = platform then bs else swapPairs16 bs

/-- Modelled from the spec: neuroglancer/util/endian convertEndian32 on a
byte view — swaps each 32-bit unit exactly when the declared wire endianness
differs from the platform endianness. -/
def convertEndian32Bytes (declared platform : Endianness) (bs : List Nat) :
    List Nat :=
  if declared = platform then bs else swapQuads32 bs

/-- The endian conversion decodeSkeletonChunk applies to one attribute's
bytes, selected by switching on the attribute's total per-vertex byte width:
width 2 gets convertEndian16, widths 4 and 8 get convertEndian32, any other
width falls through the switch unconverted. The wire endianness passed by
the source is LITTLE; the platform endianness is a parameter so that the
selected conversion is observable. -/
def attributeConversion (platform : Endianness) (bytesPerVertex : Nat)
    (bs : List Nat) : List Nat :=
  match bytesPerVertex with
  | 2 => convertEndian16Bytes Endianness.little platform bs
  | 4 => convertEndian32Bytes Endianness.little platform bs
  | 8 => convertEndian32Bytes Endianness.little platform bs
  | _ => bs

/-- The vertex-attribute loop of decodeSkeletonChunk: starting at the given
byte offset, slices each declared attribute's totalBytes out of the
response, applies the width-selected endian conversion, and advances the
offset; returns the attribute list and the final offset (where the edge
index array begins). -/
def decodeSkeletonAttributes (platform : Endianness) (response : List Nat)
    (numVertices : Nat) :
    Nat → List VertexAttributeInfo → List (List Nat) × Nat
  | curOffset, [] => ([], curOffset)
  | curOffset, info :: rest =>
    let bytesPerVertex := info.dataTypeBytes * info.numComponents
    let totalBytes := bytesPerVertex * numVertices
    let attr := attributeConversion platform bytesPerVertex
      ((response.drop curOffset).take totalBytes)
    let r := decodeSkeletonAttributes platform response numVertices
      (curOffset + totalBytes) rest
    (attr :: r.1, r.2)

/-- Reads a little-endian uint32 from a byte buffer, as DataView.getUint32
with littleEndian true; errors when fewer than 4 bytes remain. -/
def readUint32LE (data : List Nat) (byteOffset : Nat) : Except DecodeError Nat :=
  match data.drop byteOffset with
  | b0 :: b1 :: b2 :: b3 :: _ => Except.ok (b0 + 256 * (b1 + 256 * (b2 + 256 * b3)))
  | _ => Except.error DecodeError.rangeError

/-- Decoded skeleton chunk payload: the converted per-vertex attribute byte
arrays and the vertex/edge geometry. -/
structure SkeletonChunkData where
  vertexAttributes : List (List Nat)
  geometry : GeometryChunk
deriving DecidableEq, Repr

/-- decodeSkeletonChunk (precomputed datasource): reads the vertex and edge
counts from the 8-byte header, walks the attribute section starting after
the positions (offset 8 + numVertices * 4 * 3), then decodes positions and
edge indices. Modelled from the spec for the final call: the shared
skeleton geometry routine is decodeVertexPositionsAndIndices with 2 vertices
per primitive (skeleton edges), positions at byte offset 8, and the index
array of numEdges edge pairs starting at the end of the attribute section. -/
def decodeSkeletonChunk (platform : Endianness) (response : List Nat)
    (vertexAttributes : List VertexAttributeInfo) :
    Except DecodeError SkeletonChunkData := do
  let numVertices ← readUint32LE response 0
  let numEdges ← readUint32LE response 4
  let r := decodeSkeletonAttributes platform response numVertices
    (8 + numVertices * 4 * 3) vertexAttributes
  let geometry ← decodeVertexPositionsAndIndices 2 response Endianness.little 8
    numVertices (some r.2) (some numEdges)
  Except.ok ⟨r.1, geometry⟩

/-- Byte width of the attribute section preceding attribute i. -/
def attrBytesBefore (numVertices : Nat) (infos : List VertexAttributeInfo)
    (i : Nat) : Nat :=
  ((infos.take i).map fun inf => inf.dataTypeBytes * inf.numComponents * numVertices).sum

/-- C10: the endian conversion applied to the i-th vertex attribute is
selected solely by its total per-vertex byte width (scalar size times
component count): width 2 gets the 16-bit swap, widths 4 and 8 get the
32-bit-granularity swap, and any other width (for example 1 or 12) is
passed through with its bytes unswapped; each attribute is the converted
slice of the response at its accumulated offset. -/
theorem skeleton_attribute_endian_selection (platform : Endianness)
    (response : List Nat) (numVertices curOffset : Nat)
    (infos : List VertexAttributeInfo) (i : Nat) (hi : i < infos.length) :
    (decodeSkeletonAttributes platform response numVertices curOffset infos).1.get? i =
      some (
        let info := infos.get ⟨i, hi⟩
        let w := info.dataTypeBytes * info.numComponents
        let raw := (response.drop (curOffset + attrBytesBefore numVertices infos i)).take
          (w * numVertices)
        if w = 2 then convertEndian16Bytes Endianness.little platform raw
        else if w = 4 ∨ w = 8 then convertEndian32Bytes Endianness.little platform raw
        else raw) := by
  induction infos generalizing i curOffset with
  | nil => exact absurd hi (by simp)
  | cons info rest ih =>
    cases i with
    | zero =>
      simp only [decodeSkeletonAttributes, List.get?_cons_zero, List.get,
        attrBytesBefore, List.take, List.map_nil, List.sum_nil, Nat.add_zero,
        Option.some.injEq]
      unfold attributeConversion
      rcases h2 : decide (info.dataTypeBytes * info.numComponents = 2) with _ | _ <;>
        rcases h4 : decide (info.dataTypeBytes * info.numComponents = 4) with _ | _ <;>
        rcases h8 : decide (info.dataTypeBytes * info.numComponents = 8) with _ | _ <;>
        simp_all
    | succ j =>
      have hj : j < rest.length := by simpa using hi
      have harith : attrBytesBefore numVertices (info :: rest) (j + 1) =
          info.dataTypeBytes * info.numComponents * numVertices +
            attrBytesBefore numVertices rest j := by
        simp [attrBytesBefore, List.take_succ_cons]
      have key := ih (curOffset + info.dataTypeBytes * info.numComponents * numVertices) j hj
      simp only [decodeSkeletonAttributes, List.get?_cons_succ]
      rw [harith, ← Nat.add_assoc]
      exact key

/-- Witness for C10: with a big-endian platform, a 12-byte-per-vertex
attribute (3-component float32) is passed through unswapped even though the
4-byte attribute around it is swapped. -/
theorem skeleton_attribute_endian_selection_witness :
    (decodeSkeletonAttributes Endianness.big
        [0, 1, 2, 3, 4, 5, 6, 7, 8, 9, 10, 11, 12, 13, 14, 15] 1 0
        [⟨4, 1⟩, ⟨4, 3⟩]).1.get? 1 =
      some [4, 5, 6, 7, 8, 9, 10, 11, 12, 13, 14, 15] := by
  have h := skeleton_attribute_endian_selection Endianness.big
    [0, 1, 2, 3, 4, 5, 6, 7, 8, 9, 10, 11, 12, 13, 14, 15] 1 0
    [⟨4, 1⟩, ⟨4, 3⟩] 1 (by decide)
  rw [h]
  rfl

/-- A 3-vector of coordinates (vec3 of neuroglancer/util/geom). The scalar
type is a parameter; theorems instantiate it at the exact reals, idealizing
the source's float32 arithmetic. -/
structure Vec3 (α : Type) where
  x : α
  y : α
  z : α
deriving DecidableEq, Repr

variable {α : Type} [LinearOrderedField α]

/-- Zero vector (vec3.create()). -/
def vzero : Vec3 α := ⟨0, 0, 0⟩

/-- Componentwise sum. -/
def vadd (a b : Vec3 α) : Vec3 α := ⟨a.x + b.x, a.y + b.y, a.z + b.z⟩

/-- Componentwise difference. -/
def vsub (a b : Vec3 α) : Vec3 α := ⟨a.x - b.x, a.y - b.y, a.z - b.z⟩

/-- Scalar multiple. -/
def vsmul (c : α) (a : Vec3 α) : Vec3 α := ⟨c * a.x, c * a.y, c * a.z⟩

/-- Dot product. -/
def vdot (a b : Vec3 α) : α := a.x * b.x + a.y * b.y + a.z * b.z

/-- Cross product (vec3.cross). -/
def vcross (a b : Vec3 α) : Vec3 α :=
  ⟨a.y * b.z - a.z * b.y, a.z * b.x - a.x * b.z, a.x * b.y - a.y * b.x⟩

/-- vec3.normalize: scales the vector to length one via 1 / sqrt(len) when
its squared length is positive, and leaves it unchanged otherwise (a zero
vector stays zero rather than producing an undefined value). The square
root is a parameter so the definition stays executable at scalar types that
carry one. -/
def normalizeWith (sqrt : α → α) (v : Vec3 α) : Vec3 α :=
  let len := vdot v v
  if 0 < len then vsmul (1 / sqrt len) v else v

/-- Splits the flat index array into consecutive triangles, as the loop of
computeVertexNormals reading indices i, i+1, i+2 in steps of 3. -/
def triangleTriples : List Nat → List (Nat × Nat × Nat)
  | i0 :: i1 :: i2 :: rest => (i0, i1, i2) :: triangleTriples rest
  | _ => []

/-- Face normal of one triangle, as computeVertexNormals:
normalize(cross(v1 - v0, v2 - v1)). -/
def faceNormalAt (sqrt : α → α) (positions : List (Vec3 α)) (i0 i1 i2 : Nat) :
    Vec3 α :=
  let v0 := positions.getD i0 vzero
  let v1 := positions.getD i1 vzero
  let v2 := positions.getD i2 vzero
  normalizeWith sqrt (vcross (vsub v1 v0) (vsub v2 v1))

/-- One iteration of the triangle loop of computeVertexNormals: adds the
face normal into the accumulator of each of the triangle's three vertices. -/
def accumulateFace (sqrt : α → α) (positions : List (Vec3 α))
    (acc : List (Vec3 α)) (t : Nat × Nat × Nat) : List (Vec3 α) :=
  let n := faceNormalAt sqrt positions t.1 t.2.1 t.2.2
  let acc := acc.set t.1 (vadd (acc.getD t.1 vzero) n)
  let acc := acc.set t.2.1 (vadd (acc.getD t.2.1 vzero) n)
  acc.set t.2.2 (vadd (acc.getD t.2.2 vzero) n)

/-- The per-vertex normal accumulators after the triangle loop of
computeVertexNormals, starting from the zero-initialized output array. -/
def vertexNormalAccumulators (sqrt : α → α) (positions : List (Vec3 α))
    (indices : List Nat) : List (Vec3 α) :=
  (triangleTriples indices).foldl (accumulateFace sqrt positions)
    (List.replicate positions.length vzero)

/-- computeVertexNormals (mesh/backend.ts): accumulates the normalized face
normals per vertex, then normalizes each per-vertex accumulator. -/
def computeVertexNormals (sqrt : α → α) (positions : List (Vec3 α))
    (indices : List Nat) : List (Vec3 α) :=
  (vertexNormalAccumulators sqrt positions indices).map (normalizeWith sqrt)

theorem vdot_self_pos_of_ne_zero (v : Vec3 α) (h : v ≠ vzero) : 0 < vdot v v := by
  rcases v with ⟨x, y, z⟩
  have hne : x ≠ 0 ∨ y ≠ 0 ∨ z ≠ 0 := by
    by_contra hc
    push_neg at hc
    exact h (by simp [vzero, hc.1, hc.2.1, hc.2.2])
  have hx2 : 0 ≤ x * x := mul_self_nonneg x
  have hy2 : 0 ≤ y * y := mul_self_nonneg y
  have hz2 : 0 ≤ z * z := mul_self_nonneg z
  rcases hne with hx | hy | hz
  · have : 0 < x * x := mul_self_pos.mpr hx
    unfold vdot
    nlinarith
  · have : 0 < y * y := mul_self_pos.mpr hy
    unfold vdot
    nlinarith
  · have : 0 < z * z := mul_self_pos.mpr hz
    unfold vdot
    nlinarith

theorem normalizeWith_unit (v : Vec3 ℝ) (h : v ≠ vzero) :
    vdot (normalizeWith Real.sqrt v) (normalizeWith Real.sqrt v) = 1 := by
  have hpos : 0 < vdot v v := vdot_self_pos_of_ne_zero v h
  have hsqrt : Real.sqrt (vdot v v) * Real.sqrt (vdot v v) = vdot v v :=
    Real.mul_self_sqrt hpos.le
  have hsne : Real.sqrt (vdot v v) ≠ 0 := by
    intro hc
    rw [hc, mul_zero] at hsqrt
    exact absurd hsqrt.symm (ne_of_gt hpos)
  unfold normalizeWith
  rw [if_pos hpos]
  rcases v with ⟨x, y, z⟩
  unfold vdot vsmul at *
  field_simp

theorem normalizeWith_zero (sqrt : α → α) :
    normalizeWith sqrt (vzero : Vec3 α) = vzero := by
  unfold normalizeWith vdot vzero
  norm_num

theorem accumulateFace_length (sqrt : α → α) (positions : List (Vec3 α))
    (acc : List (Vec3 α)) (t : Nat × Nat × Nat) :
    (accumulateFace sqrt positions acc t).length = acc.length := by
  unfold accumulateFace
  simp

theorem foldl_accumulate_length (sqrt : α → α) (positions : List (Vec3 α))
    (ts : List (Nat × Nat × Nat)) :
    ∀ acc : List (Vec3 α),
      (ts.foldl (accumulateFace sqrt positions) acc).length = acc.length := by
  induction ts with
  | nil => intro acc; rfl
  | cons t rest ih =>
    intro acc
    rw [List.foldl_cons, ih, accumulateFace_length]

theorem accumulators_length (sqrt : α → α) (positions : List (Vec3 α))
    (indices : List Nat) :
    (vertexNormalAccumulators sqrt positions indices).length = positions.length := by
  unfold vertexNormalAccumulators
  rw [foldl_accumulate_length]
  simp

theorem normalizeWith_unitZ :
    normalizeWith Real.sqrt (⟨0, 0, 1⟩ : Vec3 ℝ) = ⟨0, 0, 1⟩ := by
  unfold normalizeWith vdot vsmul
  norm_num [Real.sqrt_one]

theorem normalizeWith_negUnitZ :
    normalizeWith Real.sqrt (⟨0, 0, -1⟩ : Vec3 ℝ) = ⟨0, 0, -1⟩ := by
  unfold normalizeWith vdot vsmul
  norm_num [Real.sqrt_one]

theorem normalizeWith_zeroLit :
    normalizeWith Real.sqrt (⟨0, 0, 0⟩ : Vec3 ℝ) = ⟨0, 0, 0⟩ :=
  normalizeWith_zero Real.sqrt

theorem faceNormal_oneTriangle : faceNormalAt Real.sqrt
    [⟨0, 0, 0⟩, ⟨1, 0, 0⟩, ⟨0, 1, 0⟩] 0 1 2 = (⟨0, 0, 1⟩ : Vec3 ℝ) := by
  have hstep : faceNormalAt Real.sqrt
      [(⟨0, 0, 0⟩ : Vec3 ℝ), ⟨1, 0, 0⟩, ⟨0, 1, 0⟩] 0 1 2 =
      normalizeWith Real.sqrt
        (vcross (vsub ⟨1, 0, 0⟩ ⟨0, 0, 0⟩) (vsub ⟨0, 1, 0⟩ ⟨1, 0, 0⟩)) := rfl
  rw [hstep]
  have hc : vcross (vsub (⟨1, 0, 0⟩ : Vec3 ℝ) ⟨0, 0, 0⟩)
      (vsub ⟨0, 1, 0⟩ ⟨1, 0, 0⟩) = ⟨0, 0, 1⟩ := by
    norm_num [vsub, vcross]
  rw [hc, normalizeWith_unitZ]

theorem faceNormal_oppositeWinding : faceNormalAt Real.sqrt
    [⟨0, 0, 0⟩, ⟨1, 0, 0⟩, ⟨0, 1, 0⟩] 0 2 1 = (⟨0, 0, -1⟩ : Vec3 ℝ) := by
  have hstep : faceNormalAt Real.sqrt
      [(⟨0, 0, 0⟩ : Vec3 ℝ), ⟨1, 0, 0⟩, ⟨0, 1, 0⟩] 0 2 1 =
      normalizeWith Real.sqrt
        (vcross (vsub ⟨0, 1, 0⟩ ⟨0, 0, 0⟩) (vsub ⟨1, 0, 0⟩ ⟨0, 1, 0⟩)) := rfl
  rw [hstep]
  have hc : vcross (vsub (⟨0, 1, 0⟩ : Vec3 ℝ) ⟨0, 0, 0⟩)
      (vsub ⟨1, 0, 0⟩ ⟨0, 1, 0⟩) = ⟨0, 0, -1⟩ := by
    norm_num [vsub, vcross]
  rw [hc, normalizeWith_negUnitZ]

theorem accumulator_oneTriangle : (vertexNormalAccumulators Real.sqrt
    [⟨0, 0, 0⟩, ⟨1, 0, 0⟩, ⟨0, 1, 0⟩] [0, 1, 2]).get? 0 =
    some (⟨0, 0, 1⟩ : Vec3 ℝ) := by
  unfold vertexNormalAccumulators
  have htrip : triangleTriples [0, 1, 2] = [(0, 1, 2)] := rfl
  rw [htrip, List.foldl_cons, List.foldl_nil]
  unfold accumulateFace
  rw [faceNormal_oneTriangle]
  norm_num [vadd, vzero, List.set, List.getD]

theorem accumulator_cancellation : (vertexNormalAccumulators Real.sqrt
    [⟨0, 0, 0⟩, ⟨1, 0, 0⟩, ⟨0, 1, 0⟩] [0, 1, 2, 0, 2, 1]).get? 0 =
    some (⟨0, 0, 0⟩ : Vec3 ℝ) := by
  unfold vertexNormalAccumulators
  have htrip : triangleTriples [0, 1, 2, 0, 2, 1] = [(0, 1, 2), (0, 2, 1)] := rfl
  rw [htrip, List.foldl_cons, List.foldl_cons, List.foldl_nil]
  unfold accumulateFace
  rw [faceNormal_oneTriangle, faceNormal_oppositeWinding]
  norm_num [vadd, vzero, List.set, List.getD]

/-- C9 (amended): each output entry of computeVertexNormals is the
normalization of that vertex's face-normal accumulator; it is the zero
vector (a defined value, not NaN) when the accumulator is zero, and has
exactly unit squared length whenever the accumulator is nonzero. (The
original claim's "except for vertices touching only degenerate triangles"
is refuted by the cancellation counterexample below: a vertex touching only
non-degenerate triangles can still have a zero accumulator.) -/
theorem computeVertexNormals_unit_or_zero (positions : List (Vec3 ℝ))
    (indices : List Nat) (k : Nat) (acc : Vec3 ℝ)
    (hacc : (vertexNormalAccumulators Real.sqrt positions indices).get? k =
      some acc) :
    (computeVertexNormals Real.sqrt positions indices).get? k =
      some (normalizeWith Real.sqrt acc) ∧
    (acc = vzero →
      (computeVertexNormals Real.sqrt positions indices).get? k = some vzero) ∧
    (acc ≠ vzero →
      vdot (normalizeWith Real.sqrt acc) (normalizeWith Real.sqrt acc) = 1) := by
  have hmap : (computeVertexNormals Real.sqrt positions indices).get? k =
      some (normalizeWith Real.sqrt acc) := by
    unfold computeVertexNormals
    rw [List.get?_map, hacc]
    rfl
  refine ⟨hmap, ?_, ?_⟩
  · intro h0
    rw [hmap, h0, normalizeWith_zero]
  · intro hne
    exact normalizeWith_unit acc hne

/-- Witness for C9: for a single non-degenerate triangle, vertex 0's
accumulator is (0, 0, 1), the output normal equals its normalization, and
that normalization has unit squared length. -/
theorem computeVertexNormals_unit_or_zero_witness :
    (computeVertexNormals Real.sqrt
        [⟨0, 0, 0⟩, ⟨1, 0, 0⟩, ⟨0, 1, 0⟩] [0, 1, 2]).get? 0 =
      some (normalizeWith Real.sqrt ⟨0, 0, 1⟩) ∧
    vdot (normalizeWith Real.sqrt (⟨0, 0, 1⟩ : Vec3 ℝ))
      (normalizeWith Real.sqrt (⟨0, 0, 1⟩ : Vec3 ℝ)) = 1 := by
  have h := computeVertexNormals_unit_or_zero
    [⟨0, 0, 0⟩, ⟨1, 0, 0⟩, ⟨0, 1, 0⟩] [0, 1, 2] 0 ⟨0, 0, 1⟩ accumulator_oneTriangle
  refine ⟨h.1, h.2.2 ?_⟩
  intro hc
  have hz := congrArg Vec3.z hc
  simp [vzero] at hz

/-- Counterexample for C9: in the mesh with vertices (0,0,0), (1,0,0),
(0,1,0) and index list [0,1,2, 0,2,1] (the same triangle in both windings),
every vertex touches only non-degenerate triangles — both face cross
products are nonzero — yet the two unit face normals cancel, so vertex 0's
output normal is the zero vector, whose squared length is 0, not 1. -/
theorem computeVertexNormals_cancellation_counterexample :
    vcross (vsub (⟨1, 0, 0⟩ : Vec3 ℝ) ⟨0, 0, 0⟩) (vsub ⟨0, 1, 0⟩ ⟨1, 0, 0⟩) ≠
      vzero ∧
    vcross (vsub (⟨0, 1, 0⟩ : Vec3 ℝ) ⟨0, 0, 0⟩) (vsub ⟨1, 0, 0⟩ ⟨0, 1, 0⟩) ≠
      vzero ∧
    (computeVertexNormals Real.sqrt [⟨0, 0, 0⟩, ⟨1, 0, 0⟩, ⟨0, 1, 0⟩]
        [0, 1, 2, 0, 2, 1]).get? 0 = some vzero ∧
    vdot (vzero : Vec3 ℝ) vzero ≠ 1 := by
  refine ⟨?_, ?_, ?_, ?_⟩
  · intro hc
    have hz := congrArg Vec3.z hc
    simp [vcross, vsub, vzero] at hz
  · intro hc
    have hz := congrArg Vec3.z hc
    simp [vcross, vsub, vzero] at hz
  · unfold computeVertexNormals
    rw [List.get?_map, accumulator_cancellation]
    have hz : normalizeWith Real.sqrt (⟨0, 0, 0⟩ : Vec3 ℝ) = vzero :=
      normalizeWith_zeroLit
    simp only [Option.map]
    rw [hz]
  · simp [vdot, vzero]

end NG
